import Mathlib

/-!
Shallow embedding of the video-analysis job pipeline (`src/app/main.py`,
`src/app/models.py`).  The background task `process_video_job` is modelled as a
pure function from the external effects it depends on — the segmentation result
(ffmpeg), a per-chunk analysis oracle (the Gemini call) and the outcome of the
report-file write — to the sequence of job records committed to the store, the
number of analysis invocations, and the chunk files left on disk at the end.
Every `db.commit()` in the source is one element of the returned trace.
-/

namespace VideoAnalysis

/-- Job status strings used by `main.py`. -/
inductive Status where
  | PENDING
  | PROCESSING
  | COMPLETE
  | FAILED
deriving DecidableEq, Repr

/-- The `Job` row of `models.py` (timestamps modelled as abstract ticks). -/
structure Job where
  id : String
  status : Status
  createdAt : Nat
  updatedAt : Nat
  videoPath : String
  videoFilename : Option String
  videoSize : Nat
  report : Option String
  error : Option String
  chunksProcessed : Nat
  totalChunks : Nat
deriving DecidableEq, Repr

/-- The job record inserted by `create_analysis_job` (main.py lines 80-91). -/
def createAnalysisJob (jobId savePath : String) (filename : Option String)
    (fileSize : Nat) (t : Nat) : Job :=
  { id := jobId
    status := Status.PENDING
    createdAt := t
    updatedAt := t
    videoPath := savePath
    videoFilename := filename
    videoSize := fileSize
    report := none
    error := none
    chunksProcessed := 0
    totalChunks := 0 }

/-- The fields written by the `except` branch of `process_video_job`
(main.py lines 276-280): only `status`, `error` and (via `onupdate`)
`updated_at` change. -/
def failUpdate (j : Job) (msg : String) (t : Nat) : Job :=
  { j with status := Status.FAILED, error := some msg, updatedAt := t }

/-- The commit performed after a successful chunk analysis
(main.py lines 239-242): sets `chunks_processed` and refreshes `updated_at`. -/
def commitProgress (j : Job) (cp t : Nat) : Job :=
  { j with chunksProcessed := cp, updatedAt := t }

/-- Model of `analyze_video_chunk_with_gemini` (main.py lines 314-333): the
external call is an oracle; on success the response text is stripped, on
failure the error is wrapped with the chunk number. -/
def analyzeVideoChunkWithGemini (geminiResult : Except String String)
    (chunkNumber : Nat) : Except String String :=
  match geminiResult with
  | Except.ok responseText => Except.ok responseText.trim
  | Except.error e =>
      Except.error ("Failed to analyze chunk " ++ toString chunkNumber ++ ": " ++ e)

/-- State carried by the per-chunk loop of `process_video_job`
(main.py lines 231-246): the summaries list, the current job row, the
commit tick, and the commits issued so far inside the loop. -/
structure LoopState where
  summaries : List String
  job : Job
  tick : Nat
  commits : List Job
deriving Repr

/-- One iteration of the loop body (main.py lines 232-246).  On success the
summary is appended and `chunks_processed := i + 1` is committed; on failure a
placeholder string is appended and nothing is committed. -/
def processChunk (gemini : Nat → Except String String) (i : Nat)
    (s : LoopState) : LoopState :=
  match analyzeVideoChunkWithGemini (gemini i) (i + 1) with
  | Except.ok summary =>
      let j := commitProgress s.job (i + 1) (s.tick + 1)
      { summaries := s.summaries ++ [summary]
        job := j
        tick := s.tick + 1
        commits := s.commits ++ [j] }
  | Except.error e =>
      { s with
        summaries := s.summaries ++
          ["Error processing chunk " ++ toString (i + 1) ++ ": " ++ e] }

/-- The loop over chunk indices `0, …, n-1`. -/
def runChunks (gemini : Nat → Except String String) (s : LoopState) :
    List Nat → LoopState
  | [] => s
  | i :: rest => runChunks gemini (processChunk gemini i s) rest

/-- The summary the loop records for chunk `i` (success: stripped text;
failure: the placeholder of main.py line 246 wrapping the message raised at
main.py line 333). -/
def chunkSummary (gemini : Nat → Except String String) (i : Nat) : String :=
  match gemini i with
  | Except.ok t => t.trim
  | Except.error e =>
      "Error processing chunk " ++ toString (i + 1) ++ ": " ++
        ("Failed to analyze chunk " ++ toString (i + 1) ++ ": " ++ e)

/-- Whether the analysis oracle succeeds on chunk `i`. -/
def geminiOk (gemini : Nat → Except String String) (i : Nat) : Bool :=
  match gemini i with
  | Except.ok _ => true
  | Except.error _ => false

/-- Line of 40 equals signs (main.py line 356). -/
def eqLine : String := "========================================"

/-- Text of the report header before the generation timestamp
(main.py lines 337-350). -/
def reportHeaderPre : String :=
  "\nVIDEO ANALYSIS REPORT\n=====================\nGenerated: "

/-- Text of the report header after the generation timestamp. -/
def reportHeaderPost (n : Nat) : String :=
  "\nTotal Segments Analyzed: " ++ toString n ++
    "\n\nEXECUTIVE SUMMARY\n=================\nThis report contains a chronological analysis of the submitted video evidence, \nbroken down into 5-minute segments for detailed review.\n\nDETAILED ANALYSIS\n=================\n"

/-- The report header of `create_consolidated_report`. -/
def reportHeader (now : String) (n : Nat) : String :=
  reportHeaderPre ++ now ++ reportHeaderPost n

/-- One detailed section (main.py lines 354-358), `i` being the 1-based
segment number. -/
def segmentSection (i : Nat) (summary : String) : String :=
  "\nSEGMENT " ++ toString i ++ " (Minutes " ++ toString ((i - 1) * 5) ++ "-" ++
    toString (i * 5) ++ ")\n" ++ eqLine ++ "\n" ++ summary ++ "\n"

/-- Sections built from position `i` onwards (`enumerate(summaries, 1)`). -/
def detailedSectionsFrom (i : Nat) : List String → List String
  | [] => []
  | s :: rest => segmentSection i s :: detailedSectionsFrom (i + 1) rest

/-- The `detailed_sections` list of main.py lines 352-359. -/
def detailedSections (summaries : List String) : List String :=
  detailedSectionsFrom 1 summaries

/-- The report footer (main.py lines 361-369). -/
def reportFooter (n : Nat) : String :=
  "\n\nCONCLUSION\n==========\nAnalysis complete. " ++ toString n ++
    " video segments have been processed and summarized above.\nEach segment represents approximately 5 minutes of video content.\n\nReport generated by Video Analysis Service v1.0\n"

/-- Model of `create_consolidated_report` (main.py lines 335-371), with the
`datetime.now()` timestamp passed in as `now`. -/
def createConsolidatedReport (now : String) (summaries : List String) : String :=
  reportHeader now summaries.length ++
    String.intercalate "\n" (detailedSections summaries) ++
    reportFooter summaries.length

/-- Result of one background execution: the committed job rows in order, the
final row, how many times the analysis oracle was invoked, and which chunk
files remain on disk when the execution ends. -/
structure ProcResult where
  trace : List Job
  final : Job
  analysisCalls : Nat
  chunkFilesLeft : List String
deriving Repr

/-- Model of `process_video_job` (main.py lines 202-282).
`segmentation` is the outcome of `chunk_video_with_ffmpeg`: on ffmpeg failure
the stderr text (the raised message is `Failed to chunk video: stderr`),
otherwise the sorted list of chunk files.  `gemini` gives the raw
analysis outcome of each chunk, `reportWrite` the outcome of writing the report file.
Commits are ticked `1, 2, …` into `updatedAt`. -/
def processVideoJob (job0 : Job) (segmentation : Except String (List String))
    (gemini : Nat → Except String String) (now : String)
    (reportWrite : Except String Unit) : ProcResult :=
  let j1 := { job0 with status := Status.PROCESSING, updatedAt := 1 }
  match segmentation with
  | Except.error stderr =>
      let jf := failUpdate j1 ("Failed to chunk video: " ++ stderr) 2
      { trace := [j1, jf], final := jf, analysisCalls := 0, chunkFilesLeft := [] }
  | Except.ok chunkPaths =>
      if chunkPaths.isEmpty then
        let jf := failUpdate j1 "No video chunks were created" 2
        { trace := [j1, jf], final := jf, analysisCalls := 0, chunkFilesLeft := [] }
      else
        let j2 := { j1 with totalChunks := chunkPaths.length, updatedAt := 2 }
        let s := runChunks gemini
          { summaries := [], job := j2, tick := 2, commits := [] }
          (List.range chunkPaths.length)
        match reportWrite with
        | Except.error e =>
            let jf := failUpdate s.job e (s.tick + 1)
            { trace := [j1, j2] ++ s.commits ++ [jf]
              final := jf
              analysisCalls := chunkPaths.length
              chunkFilesLeft := chunkPaths }
        | Except.ok _ =>
            let finalReport := createConsolidatedReport now s.summaries
            let jc := { s.job with
              status := Status.COMPLETE
              report := some finalReport
              chunksProcessed := chunkPaths.length
              updatedAt := s.tick + 1 }
            { trace := [j1, j2] ++ s.commits ++ [jc]
              final := jc
              analysisCalls := chunkPaths.length
              chunkFilesLeft := [] }

/-- Status responses: `get_status` (main.py lines 112-118) answers 404
`Job not found` when the id is absent from the store. -/
def getStatus (jobs : List Job) (jobId : String) : Except String Job :=
  match jobs.find? (fun j => j.id == jobId) with
  | none => Except.error "Job not found"
  | some j => Except.ok j

/-- On-disk state relevant to deletion: uploaded videos, report files, and
per-job chunk directories. -/
structure DiskState where
  videoFiles : List String
  reportFiles : List String
  chunkDirs : List String
deriving DecidableEq, Repr

/-- Model of `delete_job` (main.py lines 168-200): 404 on unknown id,
otherwise removes the video file, the `{job_id}_report.txt` file, the
`chunks/{job_id}` directory, and the row itself. -/
def deleteJob (jobs : List Job) (disk : DiskState) (jobId : String) :
    Except String (List Job × DiskState) :=
  match jobs.find? (fun j => j.id == jobId) with
  | none => Except.error "Job not found"
  | some j =>
      let disk1 := { disk with
        videoFiles := disk.videoFiles.filter (fun p => p != j.videoPath) }
      let disk2 := { disk1 with
        reportFiles := disk1.reportFiles.filter
          (fun p => p != jobId ++ "_report.txt") }
      let disk3 := { disk2 with
        chunkDirs := disk2.chunkDirs.filter (fun d => d != jobId) }
      Except.ok (jobs.filter (fun x => x.id != jobId), disk3)

/-- State of the per-chunk loop on entry (after the `total_chunks` commit of
main.py lines 225-228): no summaries, the job row carries `PROCESSING` and the
chunk count, and no loop commits yet. -/
def initLoopState (job0 : Job) (n : Nat) : LoopState :=
  { summaries := []
    job := { job0 with status := Status.PROCESSING, updatedAt := 2, totalChunks := n }
    tick := 2
    commits := [] }

/-- The whole per-chunk loop of a job with `n` chunks. -/
def loopRun (job0 : Job) (n : Nat) (g : Nat → Except String String) : LoopState :=
  runChunks g (initLoopState job0 n) (List.range n)

/-- The fields written by the COMPLETE commit of main.py lines 257-262. -/
def completeUpdate (j : Job) (rep : String) (cp t : Nat) : Job :=
  { j with
    status := Status.COMPLETE
    report := some rep
    chunksProcessed := cp
    updatedAt := t }

/-- Allowed status transitions of the spec state machine. -/
def okStep (a b : Status) : Prop :=
  a = b ∨
    (a = Status.PENDING ∧ b = Status.PROCESSING) ∨
    (a = Status.PROCESSING ∧ (b = Status.COMPLETE ∨ b = Status.FAILED))

instance (a b : Status) : Decidable (okStep a b) := by
  unfold okStep
  infer_instance

end VideoAnalysis

namespace VideoAnalysis

theorem commitProgress_fields (j : Job) (cp t : Nat) :
    (commitProgress j cp t).status = j.status ∧
    (commitProgress j cp t).report = j.report ∧
    (commitProgress j cp t).error = j.error ∧
    (commitProgress j cp t).totalChunks = j.totalChunks ∧
    (commitProgress j cp t).chunksProcessed = cp :=
  ⟨rfl, rfl, rfl, rfl, rfl⟩

theorem processChunk_ok (g : Nat → Except String String) (i : Nat)
    (s : LoopState) (t : String) (h : g i = Except.ok t) :
    processChunk g i s =
      { summaries := s.summaries ++ [t.trim]
        job := commitProgress s.job (i + 1) (s.tick + 1)
        tick := s.tick + 1
        commits := s.commits ++ [commitProgress s.job (i + 1) (s.tick + 1)] } := by
  simp [processChunk, analyzeVideoChunkWithGemini, h]

theorem processChunk_error (g : Nat → Except String String) (i : Nat)
    (s : LoopState) (e : String) (h : g i = Except.error e) :
    processChunk g i s =
      { s with summaries := s.summaries ++
          ["Error processing chunk " ++ toString (i + 1) ++ ": " ++
            ("Failed to analyze chunk " ++ toString (i + 1) ++ ": " ++ e)] } := by
  simp [processChunk, analyzeVideoChunkWithGemini, h]

theorem runChunks_summaries (g : Nat → Except String String) (is : List Nat)
    (s : LoopState) :
    (runChunks g s is).summaries = s.summaries ++ is.map (chunkSummary g) := by
  induction is generalizing s with
  | nil => simp [runChunks]
  | cons i rest ih =>
      rw [runChunks, ih]
      cases hgi : g i with
      | ok t =>
          rw [processChunk_ok g i s t hgi]
          simp [chunkSummary, hgi]
      | error e =>
          rw [processChunk_error g i s e hgi]
          simp [chunkSummary, hgi]

theorem runChunks_job_fields (g : Nat → Except String String) (is : List Nat)
    (s : LoopState) :
    (runChunks g s is).job.status = s.job.status ∧
    (runChunks g s is).job.report = s.job.report ∧
    (runChunks g s is).job.error = s.job.error ∧
    (runChunks g s is).job.totalChunks = s.job.totalChunks ∧
    (runChunks g s is).job.id = s.job.id ∧
    (runChunks g s is).job.createdAt = s.job.createdAt ∧
    (runChunks g s is).job.videoPath = s.job.videoPath ∧
    (runChunks g s is).job.videoFilename = s.job.videoFilename ∧
    (runChunks g s is).job.videoSize = s.job.videoSize := by
  induction is generalizing s with
  | nil => exact ⟨rfl, rfl, rfl, rfl, rfl, rfl, rfl, rfl, rfl⟩
  | cons i rest ih =>
      rw [runChunks]
      cases hgi : g i with
      | ok t =>
          rw [processChunk_ok g i s t hgi]
          exact ih { summaries := s.summaries ++ [t.trim]
                     job := commitProgress s.job (i + 1) (s.tick + 1)
                     tick := s.tick + 1
                     commits := s.commits ++ [commitProgress s.job (i + 1) (s.tick + 1)] }
      | error e =>
          rw [processChunk_error g i s e hgi]
          exact ih { s with summaries := s.summaries ++
              ["Error processing chunk " ++ toString (i + 1) ++ ": " ++
                ("Failed to analyze chunk " ++ toString (i + 1) ++ ": " ++ e)] }

theorem runChunks_commits (g : Nat → Except String String) (is : List Nat)
    (s : LoopState) :
    ∃ cs, (runChunks g s is).commits = s.commits ++ cs ∧
      (∀ j ∈ cs, j.status = s.job.status ∧ j.report = s.job.report ∧
        j.error = s.job.error ∧ j.totalChunks = s.job.totalChunks) ∧
      cs.map Job.chunksProcessed = (is.filter (geminiOk g)).map (fun i => i + 1) := by
  induction is generalizing s with
  | nil => exact ⟨[], by simp [runChunks], by simp, by simp⟩
  | cons i rest ih =>
      rw [runChunks]
      cases hgi : g i with
      | ok t =>
          rw [processChunk_ok g i s t hgi]
          rcases ih { summaries := s.summaries ++ [t.trim]
                      job := commitProgress s.job (i + 1) (s.tick + 1)
                      tick := s.tick + 1
                      commits := s.commits ++ [commitProgress s.job (i + 1) (s.tick + 1)] }
            with ⟨cs, hcs, hstat, hmap⟩
          refine ⟨commitProgress s.job (i + 1) (s.tick + 1) :: cs, ?_, ?_, ?_⟩
          · rw [hcs]; simp
          · intro j hj
            rcases List.mem_cons.mp hj with hj | hj
            · subst hj; exact ⟨rfl, rfl, rfl, rfl⟩
            · exact hstat j hj
          · have hfil : (i :: rest).filter (geminiOk g) =
                i :: rest.filter (geminiOk g) := by
              simp [List.filter_cons, geminiOk, hgi]
            rw [hfil]
            simp only [List.map_cons]
            exact congrArg (List.cons (i + 1)) hmap
      | error e =>
          rw [processChunk_error g i s e hgi]
          rcases ih { s with summaries := s.summaries ++
              ["Error processing chunk " ++ toString (i + 1) ++ ": " ++
                ("Failed to analyze chunk " ++ toString (i + 1) ++ ": " ++ e)] }
            with ⟨cs, hcs, hstat, hmap⟩
          refine ⟨cs, hcs, hstat, ?_⟩
          have hfil : (i :: rest).filter (geminiOk g) = rest.filter (geminiOk g) := by
            simp [List.filter_cons, geminiOk, hgi]
          rw [hfil]
          exact hmap

theorem runChunks_last (g : Nat → Except String String) (is : List Nat)
    (s : LoopState) :
    ((runChunks g s is).job = s.job ∧ (runChunks g s is).commits = s.commits) ∨
    ∃ cs, (runChunks g s is).commits = s.commits ++ cs ++ [(runChunks g s is).job] := by
  induction is generalizing s with
  | nil => exact Or.inl ⟨rfl, rfl⟩
  | cons i rest ih =>
      rw [runChunks]
      cases hgi : g i with
      | error e =>
          rw [processChunk_error g i s e hgi]
          rcases ih { s with summaries := s.summaries ++
              ["Error processing chunk " ++ toString (i + 1) ++ ": " ++
                ("Failed to analyze chunk " ++ toString (i + 1) ++ ": " ++ e)] }
            with h | ⟨cs, hcs⟩
          · exact Or.inl ⟨h.1, h.2⟩
          · exact Or.inr ⟨cs, hcs⟩
      | ok t =>
          rw [processChunk_ok g i s t hgi]
          rcases ih { summaries := s.summaries ++ [t.trim]
                      job := commitProgress s.job (i + 1) (s.tick + 1)
                      tick := s.tick + 1
                      commits := s.commits ++ [commitProgress s.job (i + 1) (s.tick + 1)] }
            with ⟨h1, h2⟩ | ⟨cs, hcs⟩
          · refine Or.inr ⟨[], ?_⟩
            rw [h2, h1]
            simp
          · refine Or.inr ⟨commitProgress s.job (i + 1) (s.tick + 1) :: cs, ?_⟩
            rw [hcs]
            simp

end VideoAnalysis

namespace VideoAnalysis

theorem processVideoJob_ok_ok (job0 : Job) (c : String) (cs : List String)
    (g : Nat → Except String String) (now : String) :
    processVideoJob job0 (Except.ok (c :: cs)) g now (Except.ok ()) =
      { trace := [{ job0 with status := Status.PROCESSING, updatedAt := 1 },
          (initLoopState job0 (c :: cs).length).job] ++
          (loopRun job0 (c :: cs).length g).commits ++
          [completeUpdate (loopRun job0 (c :: cs).length g).job
            (createConsolidatedReport now (loopRun job0 (c :: cs).length g).summaries)
            (c :: cs).length ((loopRun job0 (c :: cs).length g).tick + 1)]
        final := completeUpdate (loopRun job0 (c :: cs).length g).job
          (createConsolidatedReport now (loopRun job0 (c :: cs).length g).summaries)
          (c :: cs).length ((loopRun job0 (c :: cs).length g).tick + 1)
        analysisCalls := (c :: cs).length
        chunkFilesLeft := [] } := rfl

theorem processVideoJob_ok_writeError (job0 : Job) (c : String) (cs : List String)
    (g : Nat → Except String String) (now : String) (e : String) :
    processVideoJob job0 (Except.ok (c :: cs)) g now (Except.error e) =
      { trace := [{ job0 with status := Status.PROCESSING, updatedAt := 1 },
          (initLoopState job0 (c :: cs).length).job] ++
          (loopRun job0 (c :: cs).length g).commits ++
          [failUpdate (loopRun job0 (c :: cs).length g).job e
            ((loopRun job0 (c :: cs).length g).tick + 1)]
        final := failUpdate (loopRun job0 (c :: cs).length g).job e
          ((loopRun job0 (c :: cs).length g).tick + 1)
        analysisCalls := (c :: cs).length
        chunkFilesLeft := c :: cs } := rfl

theorem loopRun_summaries (job0 : Job) (n : Nat) (g : Nat → Except String String) :
    (loopRun job0 n g).summaries = (List.range n).map (chunkSummary g) := by
  rw [loopRun, runChunks_summaries]
  rfl

theorem detailedSectionsFrom_length (i : Nat) (l : List String) :
    (detailedSectionsFrom i l).length = l.length := by
  induction l generalizing i with
  | nil => rfl
  | cons a rest ih => simp [detailedSectionsFrom, ih]

theorem detailedSectionsFrom_getD (i k : Nat) (l : List String) (h : k < l.length) :
    (detailedSectionsFrom i l).getD k "" = segmentSection (i + k) (l.getD k "") := by
  induction l generalizing i k with
  | nil => simp at h
  | cons a rest ih =>
      cases k with
      | zero => simp [detailedSectionsFrom]
      | succ k =>
          have hk : k < rest.length := Nat.lt_of_succ_lt_succ (by simpa using h)
          have hih := ih (i + 1) k hk
          have harith : i + 1 + k = i + (k + 1) := by omega
          rw [detailedSectionsFrom, List.getD_cons_succ, List.getD_cons_succ, hih, harith]

/-- C3: a job whose segmentation produces zero segments ends FAILED with the
segmentation-related message raised at main.py line 220, and the analysis
function is never invoked (zero analysis calls). -/
theorem c3_zero_segments (job0 : Job) (g : Nat → Except String String)
    (now : String) (wr : Except String Unit) :
    (processVideoJob job0 (Except.ok []) g now wr).final.status = Status.FAILED ∧
    (processVideoJob job0 (Except.ok []) g now wr).final.error =
      some "No video chunks were created" ∧
    (processVideoJob job0 (Except.ok []) g now wr).analysisCalls = 0 :=
  ⟨rfl, rfl, rfl⟩

end VideoAnalysis

namespace VideoAnalysis

/-- C7: aggregation is order-preserving and deterministic up to the timestamp:
the output is a fixed prefix, then the timestamp, then a remainder depending
only on the summaries; the sections list has one entry per summary, the k-th
(0-based) entry is the section for 1-based segment k+1 labelled with minutes
k*5 to (k+1)*5 and containing that summary; header and footer state the
segment count. -/
theorem c7_aggregate_deterministic (t1 t2 : String) (s : List String) :
    (∃ rest : String,
      createConsolidatedReport t1 s = reportHeaderPre ++ t1 ++ rest ∧
      createConsolidatedReport t2 s = reportHeaderPre ++ t2 ++ rest) ∧
    (detailedSections s).length = s.length ∧
    (∀ k, k < s.length →
      (detailedSections s).getD k "" = segmentSection (k + 1) (s.getD k "")) ∧
    (∀ k (str : String), segmentSection (k + 1) str =
      "\nSEGMENT " ++ toString (k + 1) ++ " (Minutes " ++ toString (k * 5) ++
        "-" ++ toString ((k + 1) * 5) ++ ")\n" ++ eqLine ++ "\n" ++ str ++ "\n") ∧
    (∃ a b : String, createConsolidatedReport t1 s =
      a ++ ("Total Segments Analyzed: " ++ toString s.length) ++ b) ∧
    (∃ a b : String, createConsolidatedReport t1 s =
      a ++ ("Analysis complete. " ++ toString s.length ++
        " video segments have been processed and summarized above.") ++ b) := by
  refine ⟨?_, ?_, ?_, ?_, ?_, ?_⟩
  · refine ⟨reportHeaderPost s.length ++ String.intercalate "\n" (detailedSections s) ++
      reportFooter s.length, ?_, ?_⟩ <;>
      simp [createConsolidatedReport, reportHeader, String.append_assoc]
  · exact detailedSectionsFrom_length 1 s
  · intro k hk
    have h := detailedSectionsFrom_getD 1 k s hk
    rw [detailedSections, h, Nat.add_comm]
  · intro k str
    simp [segmentSection]
  · refine ⟨reportHeaderPre ++ t1 ++ "\n",
      "\n\nEXECUTIVE SUMMARY\n=================\nThis report contains a chronological analysis of the submitted video evidence, \nbroken down into 5-minute segments for detailed review.\n\nDETAILED ANALYSIS\n=================\n" ++
        String.intercalate "\n" (detailedSections s) ++ reportFooter s.length, ?_⟩
    have hsplit : ("\nTotal Segments Analyzed: " : String) =
        "\n" ++ "Total Segments Analyzed: " := rfl
    rw [createConsolidatedReport, reportHeader, reportHeaderPost, hsplit]
    simp only [String.append_assoc]
  · refine ⟨reportHeader t1 s.length ++ String.intercalate "\n" (detailedSections s) ++
      "\n\nCONCLUSION\n==========\n",
      "\nEach segment represents approximately 5 minutes of video content.\n\nReport generated by Video Analysis Service v1.0\n", ?_⟩
    have hsplit1 : ("\n\nCONCLUSION\n==========\nAnalysis complete. " : String) =
        "\n\nCONCLUSION\n==========\n" ++ "Analysis complete. " := rfl
    have hsplit2 : (" video segments have been processed and summarized above.\nEach segment represents approximately 5 minutes of video content.\n\nReport generated by Video Analysis Service v1.0\n" : String) =
        " video segments have been processed and summarized above." ++
          "\nEach segment represents approximately 5 minutes of video content.\n\nReport generated by Video Analysis Service v1.0\n" := rfl
    rw [createConsolidatedReport, reportFooter, hsplit1, hsplit2]
    simp only [String.append_assoc]

end VideoAnalysis

namespace VideoAnalysis

theorem getD_map_range (n k : Nat) (f : Nat → String) (hk : k < n) :
    ((List.range n).map f).getD k "" = f k := by
  rw [List.getD_eq_getElem?_getD, List.getElem?_map, List.getElem?_range hk]
  rfl

/-- C1: on a run whose segmentation yields N ≥ 1 segments and whose report
write succeeds, whatever the per-segment analysis outcomes, the job ends
COMPLETE with `chunks_processed = N`, its report is the aggregation of the N
per-segment summaries (so it has N sections in ascending order), and every
summary of every failed segment is the placeholder embedding the 1-based segment
index and the failure reason. -/
theorem c1_partial_failure_still_complete (job0 : Job) (chunkPaths : List String)
    (g : Nat → Except String String) (now : String) (hne : chunkPaths ≠ []) :
    (processVideoJob job0 (Except.ok chunkPaths) g now (Except.ok ())).final.status =
      Status.COMPLETE ∧
    (processVideoJob job0 (Except.ok chunkPaths) g now (Except.ok ())).final.chunksProcessed =
      chunkPaths.length ∧
    (processVideoJob job0 (Except.ok chunkPaths) g now (Except.ok ())).final.report =
      some (createConsolidatedReport now
        ((List.range chunkPaths.length).map (chunkSummary g))) ∧
    (detailedSections ((List.range chunkPaths.length).map (chunkSummary g))).length =
      chunkPaths.length ∧
    (∀ k e, k < chunkPaths.length → g k = Except.error e →
      ((List.range chunkPaths.length).map (chunkSummary g)).getD k "" =
        "Error processing chunk " ++ toString (k + 1) ++ ": " ++
          ("Failed to analyze chunk " ++ toString (k + 1) ++ ": " ++ e)) := by
  obtain ⟨c, cs, rfl⟩ := List.exists_cons_of_ne_nil hne
  rw [processVideoJob_ok_ok]
  refine ⟨rfl, rfl, ?_, ?_, ?_⟩
  · simp only [completeUpdate]
    rw [loopRun_summaries]
  · rw [detailedSections, detailedSectionsFrom_length, List.length_map,
      List.length_range]
  · intro k e hk hge
    rw [getD_map_range _ _ _ hk]
    simp [chunkSummary, hge]

/-- C1 witness: a three-segment job whose second segment fails analysis still
ends COMPLETE with `chunks_processed = 3`, and summary 2 is the placeholder. -/
theorem c1_witness :
    (processVideoJob (createAnalysisJob "job-1" "uploads/v.mp4" (some "v.mp4") 10 0)
      (Except.ok ["chunks/c0.mp4", "chunks/c1.mp4", "chunks/c2.mp4"])
      (fun i => if i = 1 then Except.error "boom" else Except.ok "all quiet")
      "2025-01-01 00:00:00" (Except.ok ())).final.status = Status.COMPLETE ∧
    (processVideoJob (createAnalysisJob "job-1" "uploads/v.mp4" (some "v.mp4") 10 0)
      (Except.ok ["chunks/c0.mp4", "chunks/c1.mp4", "chunks/c2.mp4"])
      (fun i => if i = 1 then Except.error "boom" else Except.ok "all quiet")
      "2025-01-01 00:00:00" (Except.ok ())).final.chunksProcessed = 3 ∧
    ((List.range 3).map (chunkSummary
      (fun i => if i = 1 then Except.error "boom" else Except.ok "all quiet"))).getD 1 "" =
      "Error processing chunk " ++ toString (1 + 1) ++ ": " ++
        ("Failed to analyze chunk " ++ toString (1 + 1) ++ ": " ++ "boom") := by
  have h := c1_partial_failure_still_complete
    (createAnalysisJob "job-1" "uploads/v.mp4" (some "v.mp4") 10 0)
    ["chunks/c0.mp4", "chunks/c1.mp4", "chunks/c2.mp4"]
    (fun i => if i = 1 then Except.error "boom" else Except.ok "all quiet")
    "2025-01-01 00:00:00" (by decide)
  exact ⟨h.1, h.2.1, h.2.2.2.2 1 "boom" (by decide) rfl⟩

end VideoAnalysis

namespace VideoAnalysis

theorem loopRun_job_fields (job0 : Job) (n : Nat) (g : Nat → Except String String) :
    (loopRun job0 n g).job.status = Status.PROCESSING ∧
    (loopRun job0 n g).job.report = job0.report ∧
    (loopRun job0 n g).job.error = job0.error ∧
    (loopRun job0 n g).job.totalChunks = n ∧
    (loopRun job0 n g).job.id = job0.id ∧
    (loopRun job0 n g).job.createdAt = job0.createdAt ∧
    (loopRun job0 n g).job.videoPath = job0.videoPath ∧
    (loopRun job0 n g).job.videoFilename = job0.videoFilename ∧
    (loopRun job0 n g).job.videoSize = job0.videoSize :=
  runChunks_job_fields g (List.range n) (initLoopState job0 n)

theorem loopRun_commits (job0 : Job) (n : Nat) (g : Nat → Except String String) :
    (∀ j ∈ (loopRun job0 n g).commits,
      j.status = Status.PROCESSING ∧ j.report = job0.report ∧
      j.error = job0.error ∧ j.totalChunks = n) ∧
    (loopRun job0 n g).commits.map Job.chunksProcessed =
      ((List.range n).filter (geminiOk g)).map (fun i => i + 1) := by
  obtain ⟨cs, hcs, hstat, hmap⟩ :=
    runChunks_commits g (List.range n) (initLoopState job0 n)
  rw [loopRun, hcs]
  refine ⟨?_, by simpa [initLoopState] using hmap⟩
  intro j hj
  have hj' : j ∈ cs := by simpa [initLoopState] using hj
  exact hstat j hj'

theorem loopRun_last (job0 : Job) (n : Nat) (g : Nat → Except String String) :
    ((loopRun job0 n g).job = (initLoopState job0 n).job ∧
      (loopRun job0 n g).commits = []) ∨
    ∃ cs, (loopRun job0 n g).commits = cs ++ [(loopRun job0 n g).job] := by
  rcases runChunks_last g (List.range n) (initLoopState job0 n) with ⟨h1, h2⟩ | ⟨cs, hcs⟩
  · exact Or.inl ⟨h1, h2⟩
  · exact Or.inr ⟨cs, by simpa using hcs⟩

theorem chain_ok_aux (l : List Status) (t : Status)
    (hl : ∀ x ∈ l, x = Status.PROCESSING) (ht : okStep Status.PROCESSING t) :
    List.Chain' okStep (Status.PENDING :: Status.PROCESSING :: (l ++ [t])) := by
  induction l with
  | nil =>
      refine List.chain'_cons.mpr ⟨Or.inr (Or.inl ⟨rfl, rfl⟩), ?_⟩
      exact List.chain'_cons.mpr ⟨ht, List.chain'_singleton t⟩
  | cons x xs ih =>
      have hx := hl x (List.mem_cons_self x xs)
      subst hx
      have h' := ih (fun y hy => hl y (List.mem_cons_of_mem _ hy))
      have h2 := (List.chain'_cons.mp h').2
      exact List.chain'_cons.mpr ⟨Or.inr (Or.inl ⟨rfl, rfl⟩),
        List.chain'_cons.mpr ⟨Or.inl rfl, h2⟩⟩

/-- C2: on any run, the statuses observed at creation and at every commit form
a chain of allowed transitions (PENDING to PROCESSING, PROCESSING to itself or
to a terminal state), and the allowed-transition relation leaves COMPLETE and
FAILED terminal. -/
theorem c2_status_machine (job0 : Job) (seg : Except String (List String))
    (g : Nat → Except String String) (now : String) (wr : Except String Unit)
    (h0 : job0.status = Status.PENDING) :
    List.Chain' okStep
      (List.map Job.status (job0 :: (processVideoJob job0 seg g now wr).trace)) ∧
    ∀ a b : Status, okStep a b → (a = Status.COMPLETE ∨ a = Status.FAILED) →
      b = a := by
  constructor
  · cases seg with
    | error stderr =>
        show List.Chain' okStep [job0.status, Status.PROCESSING, Status.FAILED]
        rw [h0]
        exact chain_ok_aux [] Status.FAILED (by intro x hx; cases hx)
          (Or.inr (Or.inr ⟨rfl, Or.inr rfl⟩))
    | ok chunks =>
        cases chunks with
        | nil =>
            show List.Chain' okStep [job0.status, Status.PROCESSING, Status.FAILED]
            rw [h0]
            exact chain_ok_aux [] Status.FAILED (by intro x hx; cases hx)
              (Or.inr (Or.inr ⟨rfl, Or.inr rfl⟩))
        | cons c cs =>
            obtain ⟨hall, _⟩ := loopRun_commits job0 (c :: cs).length g
            have hl : ∀ x ∈ Status.PROCESSING ::
                List.map Job.status (loopRun job0 (c :: cs).length g).commits,
                x = Status.PROCESSING := by
              intro x hx
              rcases List.mem_cons.mp hx with hx | hx
              · exact hx
              · obtain ⟨j, hj, hjx⟩ := List.mem_map.mp hx
                rw [← hjx]
                exact (hall j hj).1
            cases wr with
            | ok u =>
                rw [processVideoJob_ok_ok]
                simp only [List.map_cons, List.map_append, List.cons_append,
                  List.nil_append, List.append_assoc, initLoopState, completeUpdate]
                rw [h0]
                exact chain_ok_aux
                  (Status.PROCESSING ::
                    List.map Job.status (loopRun job0 (c :: cs).length g).commits)
                  Status.COMPLETE hl (Or.inr (Or.inr ⟨rfl, Or.inl rfl⟩))
            | error e =>
                rw [processVideoJob_ok_writeError]
                simp only [List.map_cons, List.map_append, List.cons_append,
                  List.nil_append, List.append_assoc, initLoopState, failUpdate]
                rw [h0]
                exact chain_ok_aux
                  (Status.PROCESSING ::
                    List.map Job.status (loopRun job0 (c :: cs).length g).commits)
                  Status.FAILED hl (Or.inr (Or.inr ⟨rfl, Or.inr rfl⟩))
  · intro a b hab ha
    rcases ha with ha | ha <;> subst ha <;>
      rcases hab with h | ⟨h1, _⟩ | ⟨h1, _⟩ <;>
      first
        | exact h.symm
        | exact Status.noConfusion h1

/-- C2 witness: a concrete one-chunk run whose analysis fails still walks
PENDING, PROCESSING, …, COMPLETE through allowed transitions only. -/
theorem c2_witness :
    List.Chain' okStep (List.map Job.status
      (createAnalysisJob "job-2" "uploads/a.mp4" (some "a.mp4") 5 0 ::
        (processVideoJob (createAnalysisJob "job-2" "uploads/a.mp4" (some "a.mp4") 5 0)
          (Except.ok ["chunks/c0.mp4"]) (fun _ => Except.error "timeout")
          "2025-01-01 00:00:00" (Except.ok ())).trace)) :=
  (c2_status_machine (createAnalysisJob "job-2" "uploads/a.mp4" (some "a.mp4") 5 0)
    (Except.ok ["chunks/c0.mp4"]) (fun _ => Except.error "timeout")
    "2025-01-01 00:00:00" (Except.ok ()) rfl).1

end VideoAnalysis

namespace VideoAnalysis

theorem processVideoJob_segError (job0 : Job) (g : Nat → Except String String)
    (now : String) (wr : Except String Unit) (stderr : String) :
    processVideoJob job0 (Except.error stderr) g now wr =
      { trace := [{ job0 with status := Status.PROCESSING, updatedAt := 1 },
          failUpdate { job0 with status := Status.PROCESSING, updatedAt := 1 }
            ("Failed to chunk video: " ++ stderr) 2]
        final := failUpdate { job0 with status := Status.PROCESSING, updatedAt := 1 }
          ("Failed to chunk video: " ++ stderr) 2
        analysisCalls := 0
        chunkFilesLeft := [] } := rfl

theorem processVideoJob_emptyChunks (job0 : Job) (g : Nat → Except String String)
    (now : String) (wr : Except String Unit) :
    processVideoJob job0 (Except.ok []) g now wr =
      { trace := [{ job0 with status := Status.PROCESSING, updatedAt := 1 },
          failUpdate { job0 with status := Status.PROCESSING, updatedAt := 1 }
            "No video chunks were created" 2]
        final := failUpdate { job0 with status := Status.PROCESSING, updatedAt := 1 }
          "No video chunks were created" 2
        analysisCalls := 0
        chunkFilesLeft := [] } := rfl

/-- C4: at creation and at every commit of the background run, `report` is
non-null iff the status is COMPLETE, `error` is non-null iff the status is
FAILED, and the two are never both set. -/
theorem c4_report_error_iff (job0 : Job) (seg : Except String (List String))
    (g : Nat → Except String String) (now : String) (wr : Except String Unit)
    (hs : job0.status = Status.PENDING) (hr : job0.report = none)
    (he : job0.error = none) :
    ∀ j ∈ job0 :: (processVideoJob job0 seg g now wr).trace,
      (j.report ≠ none ↔ j.status = Status.COMPLETE) ∧
      (j.error ≠ none ↔ j.status = Status.FAILED) ∧
      ¬(j.report ≠ none ∧ j.error ≠ none) := by
  intro j hj
  rcases List.mem_cons.mp hj with rfl | hj
  · simp [hs, hr, he]
  cases seg with
  | error stderr =>
      rw [processVideoJob_segError] at hj
      simp only [List.mem_cons, List.not_mem_nil, or_false] at hj
      rcases hj with rfl | rfl
      · simp [hr, he]
      · simp [failUpdate, hr]
  | ok chunks =>
      cases chunks with
      | nil =>
          rw [processVideoJob_emptyChunks] at hj
          simp only [List.mem_cons, List.not_mem_nil, or_false] at hj
          rcases hj with rfl | rfl
          · simp [hr, he]
          · simp [failUpdate, hr]
      | cons c cs =>
          obtain ⟨hall, _⟩ := loopRun_commits job0 (c :: cs).length g
          obtain ⟨hjst, hjr, hje, hjt, _⟩ := loopRun_job_fields job0 (c :: cs).length g
          simp only [List.length_cons] at hall hjr hje hjt
          cases wr with
          | ok u =>
              rw [processVideoJob_ok_ok] at hj
              simp only [List.mem_append, List.mem_cons, List.not_mem_nil,
                or_false] at hj
              rcases hj with ((rfl | rfl) | hj) | rfl
              · simp [hr, he]
              · simp [initLoopState, hr, he]
              · obtain ⟨h1, h2, h3, _⟩ := hall j hj
                simp [h1, h2, h3, hr, he]
              · simp [completeUpdate, hje, he]
          | error e =>
              rw [processVideoJob_ok_writeError] at hj
              simp only [List.mem_append, List.mem_cons, List.not_mem_nil,
                or_false] at hj
              rcases hj with ((rfl | rfl) | hj) | rfl
              · simp [hr, he]
              · simp [initLoopState, hr, he]
              · obtain ⟨h1, h2, h3, _⟩ := hall j hj
                simp [h1, h2, h3, hr, he]
              · simp [failUpdate, hjr, hr]

/-- C4 witness: the invariant evaluated at the final state of a concrete
failing run started from a freshly created job. -/
theorem c4_witness :
    ((processVideoJob (createAnalysisJob "job-4" "uploads/b.mp4" (some "b.mp4") 4 0)
        (Except.ok []) (fun _ => Except.ok "x") "2025-01-01 00:00:00"
        (Except.ok ())).final.report ≠ none ↔
      (processVideoJob (createAnalysisJob "job-4" "uploads/b.mp4" (some "b.mp4") 4 0)
        (Except.ok []) (fun _ => Except.ok "x") "2025-01-01 00:00:00"
        (Except.ok ())).final.status = Status.COMPLETE) ∧
    ((processVideoJob (createAnalysisJob "job-4" "uploads/b.mp4" (some "b.mp4") 4 0)
        (Except.ok []) (fun _ => Except.ok "x") "2025-01-01 00:00:00"
        (Except.ok ())).final.error ≠ none ↔
      (processVideoJob (createAnalysisJob "job-4" "uploads/b.mp4" (some "b.mp4") 4 0)
        (Except.ok []) (fun _ => Except.ok "x") "2025-01-01 00:00:00"
        (Except.ok ())).final.status = Status.FAILED) ∧
    ¬((processVideoJob (createAnalysisJob "job-4" "uploads/b.mp4" (some "b.mp4") 4 0)
        (Except.ok []) (fun _ => Except.ok "x") "2025-01-01 00:00:00"
        (Except.ok ())).final.report ≠ none ∧
      (processVideoJob (createAnalysisJob "job-4" "uploads/b.mp4" (some "b.mp4") 4 0)
        (Except.ok []) (fun _ => Except.ok "x") "2025-01-01 00:00:00"
        (Except.ok ())).final.error ≠ none) :=
  c4_report_error_iff (createAnalysisJob "job-4" "uploads/b.mp4" (some "b.mp4") 4 0)
    (Except.ok []) (fun _ => Except.ok "x") "2025-01-01 00:00:00" (Except.ok ())
    rfl rfl rfl
    (processVideoJob (createAnalysisJob "job-4" "uploads/b.mp4" (some "b.mp4") 4 0)
      (Except.ok []) (fun _ => Except.ok "x") "2025-01-01 00:00:00"
      (Except.ok ())).final (by decide)

end VideoAnalysis

namespace VideoAnalysis

theorem loopRun_commits_cp_le (job0 : Job) (n : Nat) (g : Nat → Except String String) :
    ∀ j ∈ (loopRun job0 n g).commits, j.chunksProcessed ≤ n := by
  intro j hj
  obtain ⟨_, hmap⟩ := loopRun_commits job0 n g
  have hmem : j.chunksProcessed ∈
      (loopRun job0 n g).commits.map Job.chunksProcessed :=
    List.mem_map_of_mem _ hj
  rw [hmap] at hmem
  obtain ⟨i, hi, hieq⟩ := List.mem_map.mp hmem
  have hin : i < n := List.mem_range.mp (List.mem_of_mem_filter hi)
  omega

theorem loopRun_job_cp_le (job0 : Job) (n : Nat) (g : Nat → Except String String)
    (h0 : job0.chunksProcessed = 0) :
    (loopRun job0 n g).job.chunksProcessed ≤ n := by
  rcases loopRun_last job0 n g with ⟨h1, _⟩ | ⟨cs, hcs⟩
  · rw [h1]
    simp [initLoopState, h0]
  · have hj : (loopRun job0 n g).job ∈ (loopRun job0 n g).commits := by
      rw [hcs]
      simp
    exact loopRun_commits_cp_le job0 n g _ hj

/-- C6: at creation and at every commit of the background run,
`chunks_processed ≤ total_chunks`, and both counters are non-negative. -/
theorem c6_counter_invariant (job0 : Job) (seg : Except String (List String))
    (g : Nat → Except String String) (now : String) (wr : Except String Unit)
    (hcp : job0.chunksProcessed = 0) (htc : job0.totalChunks = 0) :
    ∀ j ∈ job0 :: (processVideoJob job0 seg g now wr).trace,
      j.chunksProcessed ≤ j.totalChunks ∧
      0 ≤ j.chunksProcessed ∧ 0 ≤ j.totalChunks := by
  intro j hj
  refine ⟨?_, Nat.zero_le _, Nat.zero_le _⟩
  rcases List.mem_cons.mp hj with rfl | hj
  · simp [hcp, htc]
  cases seg with
  | error stderr =>
      rw [processVideoJob_segError] at hj
      simp only [List.mem_cons, List.not_mem_nil, or_false] at hj
      rcases hj with rfl | rfl
      · simp [hcp, htc]
      · simp [failUpdate, hcp, htc]
  | ok chunks =>
      cases chunks with
      | nil =>
          rw [processVideoJob_emptyChunks] at hj
          simp only [List.mem_cons, List.not_mem_nil, or_false] at hj
          rcases hj with rfl | rfl
          · simp [hcp, htc]
          · simp [failUpdate, hcp, htc]
      | cons c cs =>
          obtain ⟨hall, _⟩ := loopRun_commits job0 (c :: cs).length g
          obtain ⟨_, _, _, hjt, _⟩ := loopRun_job_fields job0 (c :: cs).length g
          have hcple := loopRun_commits_cp_le job0 (c :: cs).length g
          have hjob := loopRun_job_cp_le job0 (c :: cs).length g hcp
          simp only [List.length_cons] at hall hjt hcple hjob
          cases wr with
          | ok u =>
              rw [processVideoJob_ok_ok] at hj
              simp only [List.mem_append, List.mem_cons, List.not_mem_nil,
                or_false] at hj
              rcases hj with ((rfl | rfl) | hj) | rfl
              · simp [hcp, htc]
              · simp [initLoopState, hcp]
              · rw [(hall j hj).2.2.2]
                exact hcple j hj
              · simp [completeUpdate, hjt]
          | error e =>
              rw [processVideoJob_ok_writeError] at hj
              simp only [List.mem_append, List.mem_cons, List.not_mem_nil,
                or_false] at hj
              rcases hj with ((rfl | rfl) | hj) | rfl
              · simp [hcp, htc]
              · simp [initLoopState, hcp]
              · rw [(hall j hj).2.2.2]
                exact hcple j hj
              · simp only [failUpdate, List.length_cons]
                rw [hjt]
                exact hjob

/-- C6 witness: the invariant evaluated at the post-segmentation state of a
concrete two-chunk run started from a freshly created job. -/
theorem c6_witness :
    (initLoopState (createAnalysisJob "job-6" "uploads/c.mp4" (some "c.mp4") 6 0)
        2).job.chunksProcessed ≤
      (initLoopState (createAnalysisJob "job-6" "uploads/c.mp4" (some "c.mp4") 6 0)
        2).job.totalChunks ∧
    0 ≤ (initLoopState (createAnalysisJob "job-6" "uploads/c.mp4" (some "c.mp4") 6 0)
        2).job.chunksProcessed ∧
    0 ≤ (initLoopState (createAnalysisJob "job-6" "uploads/c.mp4" (some "c.mp4") 6 0)
        2).job.totalChunks :=
  c6_counter_invariant (createAnalysisJob "job-6" "uploads/c.mp4" (some "c.mp4") 6 0)
    (Except.ok ["chunks/c0.mp4", "chunks/c1.mp4"])
    (fun i => if i = 0 then Except.error "oops" else Except.ok "fine")
    "2025-01-01 00:00:00" (Except.ok ()) rfl rfl
    (initLoopState (createAnalysisJob "job-6" "uploads/c.mp4" (some "c.mp4") 6 0)
      2).job (by decide)

end VideoAnalysis

namespace VideoAnalysis

/-- C5 counterexample: claim C5 requires that after each segment — failed or
not — `chunks_processed` is incremented by exactly one and persisted before
the next segment starts, so in a 2-chunk run the store must at some point
show `chunks_processed = 1`.  In this concrete run (chunk 1 fails analysis,
chunk 2 succeeds, job completes with `total_chunks = 2`) no observable state
ever carries `chunks_processed = 1`: the counter jumps from 0 to 2, because
the code only writes the counter after a successful analysis
(main.py lines 239-246). -/
theorem c5_counterexample :
    (processVideoJob (createAnalysisJob "job-5" "uploads/v.mp4" (some "v.mp4") 9 0)
      (Except.ok ["chunks/c0.mp4", "chunks/c1.mp4"])
      (fun i => if i = 0 then Except.error "boom" else Except.ok "calm")
      "TS" (Except.ok ())).final.status = Status.COMPLETE ∧
    (processVideoJob (createAnalysisJob "job-5" "uploads/v.mp4" (some "v.mp4") 9 0)
      (Except.ok ["chunks/c0.mp4", "chunks/c1.mp4"])
      (fun i => if i = 0 then Except.error "boom" else Except.ok "calm")
      "TS" (Except.ok ())).final.totalChunks = 2 ∧
    ∀ j ∈ createAnalysisJob "job-5" "uploads/v.mp4" (some "v.mp4") 9 0 ::
      (processVideoJob (createAnalysisJob "job-5" "uploads/v.mp4" (some "v.mp4") 9 0)
        (Except.ok ["chunks/c0.mp4", "chunks/c1.mp4"])
        (fun i => if i = 0 then Except.error "boom" else Except.ok "calm")
        "TS" (Except.ok ())).trace, j.chunksProcessed ≠ 1 := by
  decide

/-- C5 as amended: after segmentation `total_chunks` is set once (the second
committed state) and keeps that value in every later state; the loop commits
one progress update per SUCCESSFUL segment, persisting `chunks_processed =
i + 1` in ascending order of the successful indices; failed segments write no
counter update; the COMPLETE commit finally sets `chunks_processed = N`. -/
theorem c5_amended_progress (job0 : Job) (chunks : List String)
    (g : Nat → Except String String) (now : String) (hne : chunks ≠ []) :
    ∃ mid fin,
      (processVideoJob job0 (Except.ok chunks) g now (Except.ok ())).trace =
        [{ job0 with status := Status.PROCESSING, updatedAt := 1 },
         (initLoopState job0 chunks.length).job] ++ mid ++ [fin] ∧
      (initLoopState job0 chunks.length).job.totalChunks = chunks.length ∧
      (∀ j ∈ mid, j.totalChunks = chunks.length) ∧
      mid.map Job.chunksProcessed =
        ((List.range chunks.length).filter (geminiOk g)).map (fun i => i + 1) ∧
      fin.status = Status.COMPLETE ∧
      fin.chunksProcessed = chunks.length ∧
      fin.totalChunks = chunks.length := by
  obtain ⟨c, cs, rfl⟩ := List.exists_cons_of_ne_nil hne
  obtain ⟨hall, hmap⟩ := loopRun_commits job0 (c :: cs).length g
  obtain ⟨_, _, _, hjt, _⟩ := loopRun_job_fields job0 (c :: cs).length g
  simp only [List.length_cons] at hjt
  refine ⟨(loopRun job0 (c :: cs).length g).commits,
    completeUpdate (loopRun job0 (c :: cs).length g).job
      (createConsolidatedReport now (loopRun job0 (c :: cs).length g).summaries)
      (c :: cs).length ((loopRun job0 (c :: cs).length g).tick + 1),
    ?_, ?_, ?_, ?_, rfl, rfl, ?_⟩
  · rw [processVideoJob_ok_ok]
  · simp [initLoopState]
  · intro j hj
    exact (hall j hj).2.2.2
  · exact hmap
  · simp [completeUpdate, hjt]

/-- C5 witness: the amended progress description instantiated on a concrete
two-chunk run whose first chunk fails analysis. -/
theorem c5_witness :
    ∃ mid fin,
      (processVideoJob (createAnalysisJob "job-5w" "uploads/w.mp4" (some "w.mp4") 9 0)
        (Except.ok ["chunks/c0.mp4", "chunks/c1.mp4"])
        (fun i => if i = 0 then Except.error "boom" else Except.ok "calm")
        "TS" (Except.ok ())).trace =
        [{ createAnalysisJob "job-5w" "uploads/w.mp4" (some "w.mp4") 9 0 with
            status := Status.PROCESSING, updatedAt := 1 },
         (initLoopState (createAnalysisJob "job-5w" "uploads/w.mp4" (some "w.mp4") 9 0)
            ["chunks/c0.mp4", "chunks/c1.mp4"].length).job] ++ mid ++ [fin] ∧
      (initLoopState (createAnalysisJob "job-5w" "uploads/w.mp4" (some "w.mp4") 9 0)
        ["chunks/c0.mp4", "chunks/c1.mp4"].length).job.totalChunks =
          ["chunks/c0.mp4", "chunks/c1.mp4"].length ∧
      (∀ j ∈ mid, j.totalChunks = ["chunks/c0.mp4", "chunks/c1.mp4"].length) ∧
      mid.map Job.chunksProcessed =
        ((List.range ["chunks/c0.mp4", "chunks/c1.mp4"].length).filter
          (geminiOk (fun i => if i = 0 then Except.error "boom" else Except.ok "calm"))).map
          (fun i => i + 1) ∧
      fin.status = Status.COMPLETE ∧
      fin.chunksProcessed = ["chunks/c0.mp4", "chunks/c1.mp4"].length ∧
      fin.totalChunks = ["chunks/c0.mp4", "chunks/c1.mp4"].length :=
  c5_amended_progress (createAnalysisJob "job-5w" "uploads/w.mp4" (some "w.mp4") 9 0)
    ["chunks/c0.mp4", "chunks/c1.mp4"]
    (fun i => if i = 0 then Except.error "boom" else Except.ok "calm")
    "TS" (by decide)

/-- C8 counterexample: claim C8 requires every termination of the background
run to leave no chunk files, but in this concrete run — one chunk created,
its analysis succeeding, then a fatal report-write failure — the execution
ends FAILED with the chunk file still on disk: the cleanup loop of main.py
lines 266-271 is only reached on the success path, never from the `except`
branch. -/
theorem c8_counterexample :
    (processVideoJob (createAnalysisJob "job-8" "uploads/v.mp4" (some "v.mp4") 7 0)
      (Except.ok ["chunks/job-8/chunk_000.mp4"]) (fun _ => Except.ok "fine") "TS"
      (Except.error "disk full")).chunkFilesLeft = ["chunks/job-8/chunk_000.mp4"] ∧
    (processVideoJob (createAnalysisJob "job-8" "uploads/v.mp4" (some "v.mp4") 7 0)
      (Except.ok ["chunks/job-8/chunk_000.mp4"]) (fun _ => Except.ok "fine") "TS"
      (Except.error "disk full")).final.status = Status.FAILED :=
  ⟨rfl, rfl⟩

/-- C8 as amended: chunk files are all deleted whenever the run reaches the
COMPLETE path (regardless of per-segment analysis failures), and on a
segmentation failure no chunk files are recorded; but on a fatal abort after
a non-empty segmentation (report-write failure) the chunk files are left on
disk. -/
theorem c8_amended_cleanup (job0 : Job) (chunks : List String)
    (g : Nat → Except String String) (now : String) (stderr werr : String) :
    (processVideoJob job0 (Except.ok chunks) g now (Except.ok ())).chunkFilesLeft = [] ∧
    (processVideoJob job0 (Except.error stderr) g now (Except.ok ())).chunkFilesLeft = [] ∧
    (processVideoJob job0 (Except.ok chunks) g now (Except.error werr)).chunkFilesLeft =
      if chunks.isEmpty then [] else chunks := by
  refine ⟨?_, rfl, ?_⟩
  · cases chunks with
    | nil => rfl
    | cons c cs => rfl
  · cases chunks with
    | nil => rfl
    | cons c cs => rfl

end VideoAnalysis

namespace VideoAnalysis

/-- C9: a status query for an id absent from the store answers 404
`Job not found`; and after `delete_job` succeeds on an existing COMPLETE job,
a status lookup for that id answers 404 and no chunk directory for that job
remains on disk. -/
theorem c9_not_found_and_delete (jobs : List Job) (disk : DiskState)
    (badId : String) (j : Job)
    (hbad : jobs.find? (fun x => x.id == badId) = none)
    (hfound : jobs.find? (fun x => x.id == j.id) = some j)
    (hcomplete : j.status = Status.COMPLETE) :
    getStatus jobs badId = Except.error "Job not found" ∧
    ∀ jobs2 disk2, deleteJob jobs disk j.id = Except.ok (jobs2, disk2) →
      getStatus jobs2 j.id = Except.error "Job not found" ∧
      j.id ∉ disk2.chunkDirs := by
  constructor
  · simp [getStatus, hbad]
  · intro jobs2 disk2 hdel
    simp only [deleteJob, hfound, Except.ok.injEq, Prod.mk.injEq] at hdel
    obtain ⟨h1, h2⟩ := hdel
    subst h1
    subst h2
    constructor
    · have hnone : (jobs.filter (fun x => x.id != j.id)).find?
          (fun x => x.id == j.id) = none := by
        rw [List.find?_eq_none]
        intro x hx
        have hne := (List.mem_filter.mp hx).2
        simpa using hne
      simp [getStatus, hnone]
    · intro hmem
      have hne := (List.mem_filter.mp hmem).2
      simp at hne

/-- C9 witness: a one-job store holding a COMPLETE job; the unknown id misses,
deletion of the job empties the store and removes its chunk directory. -/
theorem c9_witness :
    getStatus [(Job.mk "done-1" Status.COMPLETE 0 5 "uploads/done-1.mp4"
      (some "v.mp4") 3 (some "R") none 1 1)] "missing" =
        Except.error "Job not found" ∧
    getStatus [] "done-1" = Except.error "Job not found" ∧
    "done-1" ∉ (DiskState.mk [] [] []).chunkDirs := by
  have h := c9_not_found_and_delete
    [(Job.mk "done-1" Status.COMPLETE 0 5 "uploads/done-1.mp4"
      (some "v.mp4") 3 (some "R") none 1 1)]
    (DiskState.mk ["uploads/done-1.mp4"] ["done-1_report.txt"] ["done-1"])
    "missing"
    (Job.mk "done-1" Status.COMPLETE 0 5 "uploads/done-1.mp4"
      (some "v.mp4") 3 (some "R") none 1 1)
    (by decide) (by decide) rfl
  have h2 := h.2 [] (DiskState.mk [] [] []) rfl
  exact ⟨h.1, h2.1, h2.2⟩

/-- C10: whenever a run ends FAILED, the final state is `failUpdate` applied
to the immediately preceding observable state, and `failUpdate` changes only
`status`, `error` and `updatedAt` — every other field (counters, report,
input reference, identity) is preserved. -/
theorem c10_failure_frame (job0 : Job) (seg : Except String (List String))
    (g : Nat → Except String String) (now : String) (wr : Except String Unit)
    (hfail : (processVideoJob job0 seg g now wr).final.status = Status.FAILED) :
    (∃ init pre msg t,
      (processVideoJob job0 seg g now wr).trace =
        init ++ [pre, failUpdate pre msg t] ∧
      (processVideoJob job0 seg g now wr).final = failUpdate pre msg t) ∧
    (∀ (j : Job) (msg : String) (t : Nat),
      (failUpdate j msg t).status = Status.FAILED ∧
      (failUpdate j msg t).error = some msg ∧
      (failUpdate j msg t).updatedAt = t ∧
      (failUpdate j msg t).chunksProcessed = j.chunksProcessed ∧
      (failUpdate j msg t).totalChunks = j.totalChunks ∧
      (failUpdate j msg t).report = j.report ∧
      (failUpdate j msg t).id = j.id ∧
      (failUpdate j msg t).createdAt = j.createdAt ∧
      (failUpdate j msg t).videoPath = j.videoPath ∧
      (failUpdate j msg t).videoFilename = j.videoFilename ∧
      (failUpdate j msg t).videoSize = j.videoSize) := by
  refine ⟨?_, fun j msg t =>
    ⟨rfl, rfl, rfl, rfl, rfl, rfl, rfl, rfl, rfl, rfl, rfl⟩⟩
  cases seg with
  | error stderr =>
      exact ⟨[], { job0 with status := Status.PROCESSING, updatedAt := 1 },
        "Failed to chunk video: " ++ stderr, 2, rfl, rfl⟩
  | ok chunks =>
      cases chunks with
      | nil =>
          exact ⟨[], { job0 with status := Status.PROCESSING, updatedAt := 1 },
            "No video chunks were created", 2, rfl, rfl⟩
      | cons c cs =>
          cases wr with
          | ok u =>
              rw [processVideoJob_ok_ok] at hfail
              simp [completeUpdate] at hfail
          | error e =>
              rw [processVideoJob_ok_writeError]
              rcases loopRun_last job0 (c :: cs).length g with ⟨h1, h2⟩ | ⟨cs2, hcs⟩
              · refine ⟨[{ job0 with status := Status.PROCESSING, updatedAt := 1 }],
                  (loopRun job0 (c :: cs).length g).job, e,
                  (loopRun job0 (c :: cs).length g).tick + 1, ?_, rfl⟩
                rw [h2, h1]
                simp [initLoopState]
              · refine ⟨[{ job0 with status := Status.PROCESSING, updatedAt := 1 },
                  (initLoopState job0 (c :: cs).length).job] ++ cs2,
                  (loopRun job0 (c :: cs).length g).job, e,
                  (loopRun job0 (c :: cs).length g).tick + 1, ?_, rfl⟩
                rw [hcs]
                simp

/-- C10 witness: the frame condition on a concrete run that fails during
segmentation. -/
theorem c10_witness :
    ∃ init pre msg t,
      (processVideoJob (createAnalysisJob "job-10" "uploads/x.mp4" (some "x.mp4") 2 0)
        (Except.error "ffmpeg exploded") (fun _ => Except.ok "y") "TS"
        (Except.ok ())).trace = init ++ [pre, failUpdate pre msg t] ∧
      (processVideoJob (createAnalysisJob "job-10" "uploads/x.mp4" (some "x.mp4") 2 0)
        (Except.error "ffmpeg exploded") (fun _ => Except.ok "y") "TS"
        (Except.ok ())).final = failUpdate pre msg t :=
  (c10_failure_frame (createAnalysisJob "job-10" "uploads/x.mp4" (some "x.mp4") 2 0)
    (Except.error "ffmpeg exploded") (fun _ => Except.ok "y") "TS"
    (Except.ok ()) rfl).1

end VideoAnalysis

namespace VideoAnalysis

/-- C3 witness: a concrete run with an empty segmentation. -/
theorem c3_witness :
    (processVideoJob (createAnalysisJob "job-3" "uploads/e.mp4" (some "e.mp4") 1 0)
      (Except.ok []) (fun _ => Except.ok "s") "TS" (Except.ok ())).final.status =
        Status.FAILED ∧
    (processVideoJob (createAnalysisJob "job-3" "uploads/e.mp4" (some "e.mp4") 1 0)
      (Except.ok []) (fun _ => Except.ok "s") "TS" (Except.ok ())).final.error =
        some "No video chunks were created" ∧
    (processVideoJob (createAnalysisJob "job-3" "uploads/e.mp4" (some "e.mp4") 1 0)
      (Except.ok []) (fun _ => Except.ok "s") "TS" (Except.ok ())).analysisCalls = 0 :=
  c3_zero_segments (createAnalysisJob "job-3" "uploads/e.mp4" (some "e.mp4") 1 0)
    (fun _ => Except.ok "s") "TS" (Except.ok ())

/-- C7 witness: the aggregation facts evaluated on a two-summary input. -/
theorem c7_witness :
    (detailedSections ["alpha", "beta"]).length =
      (["alpha", "beta"] : List String).length ∧
    (detailedSections ["alpha", "beta"]).getD 0 "" =
      segmentSection (0 + 1) ((["alpha", "beta"] : List String).getD 0 "") ∧
    (∃ a b : String, createConsolidatedReport "T1" ["alpha", "beta"] =
      a ++ ("Total Segments Analyzed: " ++
        toString (["alpha", "beta"] : List String).length) ++ b) := by
  have h := c7_aggregate_deterministic "T1" "T2" ["alpha", "beta"]
  exact ⟨h.2.1, h.2.2.1 0 (by decide), h.2.2.2.2.1⟩

end VideoAnalysis
